import Mathlib

/-!
Verification development for the in-page job-form agent (content script).
The JavaScript source is shallowly embedded: pure helpers become Lean
functions over `String` / `List Char`, page state becomes explicit record
types, and the DOM queries the code performs are modelled by their
semantics over an explicit document value.  JavaScript numbers are
modelled by `ℚ`; every threshold comparison made by the code
(`> 0.7`, `> 0.3`, `> 0.5`, `Math.ceil(n*0.6)`, distance `<= 200`) is at
least `1/(10*n)` away from the nearest representable boundary for the
sizes involved, so double rounding can never flip any of them and the
rational model is faithful.
-/

/- Batteries marks the rational-number operations irreducible; concrete
evaluation of the embedded functions needs them to unfold. -/
attribute [local semireducible] Rat.add Rat.mul Rat.sub Rat.inv

/-- ASCII lower-casing of one character; the source applies
`String.prototype.toLowerCase` to attribute text, which agrees with
ASCII lower-casing on the character ranges appearing here. -/
def lowerChar (c : Char) : Char :=
  if 'A' ≤ c ∧ c ≤ 'Z' then Char.ofNat (c.toNat + 32) else c

/-- Model of `s.toLowerCase()`. -/
def asciiLower (s : String) : String :=
  ⟨s.data.map lowerChar⟩

/-- Contiguous-sublist test on character lists. -/
def listContains (pat : List Char) : List Char → Bool
  | [] => pat.isEmpty
  | c :: t => pat.isPrefixOf (c :: t) || listContains pat t

/-- Model of JavaScript `text.includes(pat)`. -/
def strContains (text pat : String) : Bool :=
  listContains pat.data text.data

/-- Separator class of the regex `/\s+|[_-]+/` used by the fuzzy matcher. -/
def isTokenSep (c : Char) : Bool :=
  c.isWhitespace || c = '_' || c = '-'

/-- Split a character list at separator characters, keeping empty pieces. -/
def splitCharsAux (sep : Char → Bool) : List Char → List (List Char)
  | [] => [[]]
  | c :: cs =>
    match splitCharsAux sep cs with
    | [] => [[]]
    | w :: ws => if sep c then [] :: w :: ws else (c :: w) :: ws

/-- Model of `text.split(/\s+|[_-]+/)`.  The JavaScript split can leave
empty strings between adjacent separator runs of different classes; every
consumer filters tokens by `length > 2`, so dropping all empty pieces is
observationally identical and we do so here. -/
def splitTokens (s : String) : List String :=
  ((splitCharsAux isTokenSep s.data).map (fun l => (⟨l⟩ : String))).filter (fun w => w ≠ "")

/-- One row-update of the Levenshtein dynamic program: given the previous
row paired with the characters of the first string, the already-computed
entry to the left, and the diagonal entry, produce the rest of the row.
This mirrors the inner `for` loop over `matrix[j][i]`. -/
def levAux (c : Char) : Nat → Nat → List (Char × Nat) → List Nat
  | _, _, [] => []
  | qprev, diag, (x, pi) :: rest =>
    let qi := min (pi + 1) (min (qprev + 1) (diag + (if x = c then 0 else 1)))
    qi :: levAux c qi pi rest

/-- Advance the DP by one character of the second string (one `j` row). -/
def levNextRow (xs : List Char) (c : Char) (prev : List Nat) : List Nat :=
  match prev with
  | [] => []
  | p0 :: ptail => (p0 + 1) :: levAux c (p0 + 1) p0 (xs.zip ptail)

/-- Model of `levenshteinDistance(str1, str2)`: the full matrix recurrence
of the source, computed row by row; the answer is `matrix[m][n]`. -/
def levenshteinDistance (str1 str2 : String) : Nat :=
  (str2.data.foldl (fun row c => levNextRow str1.data c row)
    (List.range (str1.data.length + 1))).getLastD 0

/-- Model of `calculateSimilarity(str1, str2)`:
`(longer.length - editDistance) / longer.length`, and `1.0` for two empty
strings. -/
def calculateSimilarity (str1 str2 : String) : ℚ :=
  let longer := if str1.length > str2.length then str1 else str2
  let shorter := if str1.length > str2.length then str2 else str1
  if longer.length = 0 then 1
  else ((longer.length : ℚ) - (levenshteinDistance longer shorter : ℚ)) / (longer.length : ℚ)

/-- Model of `hasWordOverlap(words1, words2)`: some common token of length
greater than 2 (the `Set` of the source is modelled by list membership). -/
def hasWordOverlap (words1 words2 : List String) : Bool :=
  let s1 := words1.filter (fun w => w.length > 2)
  let s2 := words2.filter (fun w => w.length > 2)
  s2.any (fun w => s1.contains w)

/-- Model of `fuzzyMatchField(text, patterns)`: exact substring first,
then token overlap, then edit-distance similarity strictly above `0.7`. -/
def fuzzyMatchField (text : String) (patterns : List String) : Bool :=
  patterns.any (fun p => strContains text p) ||
  (patterns.any (fun p => hasWordOverlap (splitTokens text) (splitTokens p)) ||
   patterns.any (fun p => decide (calculateSimilarity text p > 7/10)))

/-- `Math.max` on rationals, written as a conditional so that concrete
instances evaluate by reduction. -/
def qmax (a b : ℚ) : ℚ := if a ≤ b then b else a

/-- Model of `calculateMatchConfidence(text, patterns)`: running maximum
over the pattern list of `1.0` for substring hits, else the similarity. -/
def calculateMatchConfidence (text : String) (patterns : List String) : ℚ :=
  patterns.foldl
    (fun acc p => qmax acc (if strContains text p then 1 else calculateSimilarity text p)) 0

/-- The closed category set of the taxonomy. -/
inductive FieldCategory
  | personalInfo
  | experience
  | education
  | skills
  | other
deriving DecidableEq

/-- A discovered input control, as the snapshot of the attributes the
classifier and the clustering code read.  `label` holds the associated
label text that `getFieldLabel` extracts from the page; `idx` is an
object-identity surrogate (`querySelectorAll` never returns the same
element twice); the rectangle fields model `getBoundingClientRect()`. -/
structure InputEl where
  idx : Nat := 0
  name : String := ""
  id : String := ""
  placeholder : String := ""
  label : String := ""
  ariaLabel : String := ""
  title : String := ""
  left : ℚ := 0
  top : ℚ := 0
  width : ℚ := 0
  height : ℚ := 0
deriving DecidableEq

/-- The classifier output `{category, type, confidence}`. -/
structure ClassificationResult where
  category : Option FieldCategory
  fieldType : Option String
  confidence : ℚ
deriving DecidableEq

/-- The taxonomy `fieldPatterns` of `identifyField`, flattened in the
iteration order of `Object.entries` (insertion order of the literal). -/
def fieldPatterns : List (FieldCategory × String × List String) :=
  [ (.personalInfo, "fullName",
      ["full_name", "fullname", "name", "full-name", "candidate_name",
       "applicant_name", "user_name", "your_name", "contact_name"]),
    (.personalInfo, "firstName",
      ["first", "fname", "given", "name_first", "firstname", "givenname",
       "forename", "first_name", "name-first", "user_first", "personal_first",
       "first-name", "given_name", "given-name"]),
    (.personalInfo, "lastName",
      ["last", "lname", "family", "surname", "name_last", "lastname",
       "familyname", "name-last", "user_last", "personal_last",
       "last-name", "family_name", "family-name", "sur_name"]),
    (.personalInfo, "email",
      ["email", "mail", "e-mail", "email_address", "emailaddress",
       "user_email", "contact_email", "work_email"]),
    (.personalInfo, "phone",
      ["phone", "mobile", "cell", "tel", "telephone", "contact",
       "phone_number", "phonenumber", "mobile_number", "cell_phone",
       "work_phone", "home_phone", "phone-number", "mobile-number",
       "contact_number", "contact-number", "contact_phone", "primary_phone",
       "phone_primary", "tel_number", "telephone_number"]),
    (.personalInfo, "address",
      ["address", "street", "location", "address_line", "street_address",
       "home_address", "mailing_address", "residence"]),
    (.personalInfo, "city", ["city", "town", "municipality", "locality"]),
    (.personalInfo, "state", ["state", "province", "region", "territory"]),
    (.personalInfo, "zipCode", ["zip", "postal", "postcode", "zip_code", "postal_code"]),
    (.personalInfo, "country", ["country", "nation", "nationality"]),
    (.personalInfo, "linkedin",
      ["linkedin", "linked_in", "linkedin_url", "linkedin_profile",
       "linkedin-url", "linkedin-profile", "linked-in", "linkedinurl",
       "linkedin_link", "linkedin-link", "professional_profile",
       "social_linkedin", "linkedin_username"]),
    (.personalInfo, "portfolio",
      ["portfolio", "website", "github", "personal_site", "web",
       "homepage", "blog", "portfolio_url"]),
    (.experience, "summary",
      ["experience", "work_experience", "professional_experience",
       "background", "work_history", "career_summary", "summary",
       "bio", "about", "description"]),
    (.experience, "company",
      ["company", "employer", "organization", "current_company",
       "workplace", "firm", "corporation"]),
    (.experience, "title",
      ["title", "position", "role", "job_title", "current_title",
       "current_position", "job_role", "designation"]),
    (.experience, "years",
      ["years", "experience_years", "years_experience", "tenure",
       "duration", "work_years", "total_experience"]),
    (.education, "degree",
      ["degree", "education", "education_level", "qualification",
       "diploma", "certificate", "academic_degree"]),
    (.education, "university",
      ["university", "college", "school", "institution", "alma_mater",
       "educational_institution", "academy"]),
    (.education, "major",
      ["major", "field", "study", "subject", "specialization",
       "concentration", "discipline", "area_of_study"]),
    (.education, "graduationYear",
      ["graduation", "grad_year", "completion", "year_graduated",
       "finish_year", "completion_year"]),
    (.education, "gpa", ["gpa", "grade", "marks", "score", "cgpa", "average"]),
    (.skills, "technical",
      ["skills", "technical_skills", "programming", "technologies",
       "languages", "frameworks", "tools", "competencies"]),
    (.other, "coverLetter",
      ["cover", "letter", "motivation", "why", "cover_letter",
       "personal_statement", "objective", "interest"]),
    (.other, "salary",
      ["salary", "compensation", "expected_salary", "pay",
       "wage", "remuneration", "salary_expectation"]),
    (.other, "availability",
      ["availability", "start_date", "available", "notice",
       "when_available", "start_time"]),
    (.other, "workAuthorization",
      ["authorization", "visa", "eligible", "authorized", "sponsor",
       "work_permit", "legal_status", "employment_authorization",
       "work_authorization", "work-authorization", "visa_status",
       "visa-status", "sponsorship", "legally_authorized", "work_eligible",
       "employment_eligible", "require_sponsorship", "visa_required",
       "work_visa", "employment_visa", "legal_work", "us_citizen"]),
    (.other, "willingToRelocate",
      ["relocate", "relocation", "move", "willing_to_move",
       "open_to_relocation"]),
    (.other, "remoteWork", ["remote", "work_from_home", "telecommute", "wfh"]),
    (.other, "resume",
      ["resume", "cv", "curriculum_vitae", "resume_upload", "cv_upload",
       "attach_resume", "upload_resume", "resume_file", "cv_file",
       "resume_attachment", "cv_attachment", "document_upload", "file_upload",
       "document", "attachment", "upload", "file", "resume-upload",
       "cv-upload", "resume-file", "cv-file", "upload-resume", "upload-cv",
       "resumefile", "cvfile", "resume_doc", "cv_doc", "documents"]),
    (.other, "coverLetterFile",
      ["cover_letter_file", "cover_letter_upload", "letter_upload",
       "attach_cover_letter", "cover_letter_attachment"]) ]

/-- The lowercased haystack `identifyField` builds from the six text
attributes (the source lowercases the parts and the concatenation; the
two are equal). -/
def allTextOf (e : InputEl) : String :=
  asciiLower (e.name ++ " " ++ e.id ++ " " ++ e.placeholder ++ " " ++ e.label
    ++ " " ++ e.ariaLabel ++ " " ++ e.title)

/-- The nested `for … return` loop of `identifyField` over the taxonomy. -/
def identifyLoop (text : String) :
    List (FieldCategory × String × List String) → ClassificationResult
  | [] => ⟨none, none, 0⟩
  | (cat, ty, pats) :: rest =>
    if fuzzyMatchField text pats then
      ⟨some cat, some ty, calculateMatchConfidence text pats⟩
    else identifyLoop text rest

/-- Model of `identifyField(input)`. -/
def identifyField (e : InputEl) : ClassificationResult :=
  identifyLoop (allTextOf e) fieldPatterns

/-- JavaScript `a || b` on strings (empty string is falsy). -/
def jsOr (a b : String) : String := if a = "" then b else a

/-- A structural form container (`<form>` element or generic container):
the text attributes `isJobApplicationForm` reads plus the contained
inputs returned by `querySelectorAll('input, textarea, select')`. -/
structure FormC where
  text : String := ""
  className : String := ""
  id : String := ""
  action : String := ""
  inputs : List InputEl := []
deriving DecidableEq

/-- The page as `detectJobForms` sees it: the page URL, the structural
`<form>` elements, the generic containers matched by the lexical
`potentialSelectors` list, and every input on the page. -/
structure PageDoc where
  url : String := ""
  formEls : List FormC := []
  potentialContainers : List FormC := []
  allInputs : List InputEl := []

/-- One discovered group: a qualifying `<form>`, a qualifying generic
container, or a virtual form built from a spatial input cluster. -/
inductive FormGroup
  | real (f : FormC)
  | container (f : FormC)
  | virtual (inputs : List InputEl)
deriving DecidableEq

/-- The inputs a group owns. -/
def groupInputs : FormGroup → List InputEl
  | .real f => f.inputs
  | .container f => f.inputs
  | .virtual l => l

/-- `strongJobIndicators` of `isJobApplicationForm`. -/
def strongJobIndicators : List String :=
  ["application", "apply", "resume", "cv", "career", "hiring",
   "candidate", "applicant", "job application", "employment"]

/-- `mediumJobIndicators` of `isJobApplicationForm`. -/
def mediumJobIndicators : List String :=
  ["job", "position", "work experience", "education", "contact us",
   "get in touch", "join us", "opportunities"]

/-- The URL keyword list of `isJobApplicationForm`. -/
def jobUrlKeywords : List String :=
  ["career", "job", "apply", "hiring", "employment", "opportunities"]

/-- `jobFieldKeywords` of `hasJobFormFields`. -/
def jobFieldKeywords : List String :=
  ["first name", "last name", "email", "phone", "resume", "cv",
   "experience", "education", "cover letter", "salary", "skills",
   "portfolio", "linkedin", "github", "years", "degree"]

/-- Model of `hasJobFormFields(container)`: some job keyword occurs in
some field name (`input.name || input.id || input.placeholder`,
lowercased). -/
def hasJobFormFields (f : FormC) : Bool :=
  let fieldNames := f.inputs.map (fun i => asciiLower (jsOr i.name (jsOr i.id i.placeholder)))
  jobFieldKeywords.any (fun kw => fieldNames.any (fun n => strContains n kw))

/-- The number of inputs whose classification has a non-null category. -/
def classifiableCount (inputs : List InputEl) : Nat :=
  (inputs.filter (fun i => (identifyField i).category ≠ none)).length

/-- Model of `calculateJobFieldScore(form)`: the fraction of inputs the
classifier can place, `0` for a form without inputs. -/
def calculateJobFieldScore (f : FormC) : ℚ :=
  if f.inputs.length = 0 then 0
  else (classifiableCount f.inputs : ℚ) / (f.inputs.length : ℚ)

/-- Model of `isJobApplicationForm(form)`: the sequential accumulation of
the weighted indicator score, then the `> 0.3` threshold.  `allText`
concatenates innerText, className, id and action, each lowercased. -/
def isJobApplicationForm (f : FormC) (url : String) : Bool :=
  let allText := asciiLower f.text ++ " " ++ asciiLower f.className ++ " "
    ++ asciiLower f.id ++ " " ++ asciiLower f.action
  let hasStrongIndicators := strongJobIndicators.any (fun k => strContains allText k)
  let hasMediumIndicators := mediumJobIndicators.any (fun k => strContains allText k)
  let hasJobUrl := jobUrlKeywords.any (fun k => strContains (asciiLower url) k)
  let hasJobFields := hasJobFormFields f
  let fieldScore := calculateJobFieldScore f
  let c1 : ℚ := if hasStrongIndicators then 0 + 6/10 else 0
  let c2 : ℚ := if hasMediumIndicators then c1 + 2/10 else c1
  let c3 : ℚ := if hasJobUrl then c2 + 2/10 else c2
  let c4 : ℚ := if hasJobFields then c3 + 3/10 else c3
  let c5 : ℚ := if fieldScore > 5/10 then c4 + 2/10 else c4
  decide (c5 > 3/10)

/-- Horizontal center of an input, from its bounding rectangle. -/
def centerX (e : InputEl) : ℚ := e.left + e.width / 2

/-- Vertical center of an input. -/
def centerY (e : InputEl) : ℚ := e.top + e.height / 2

/-- Squared center distance between two inputs.  The source compares
`Math.sqrt(dx^2 + dy^2) <= radius`; squaring both sides is equivalent. -/
def dist2 (a b : InputEl) : ℚ :=
  (centerX a - centerX b) * (centerX a - centerX b)
  + (centerY a - centerY b) * (centerY a - centerY b)

/-- Model of `findNearbyInputs(element, radius)` over the page inputs
`A`: every other input whose center is within `radius` (the `===`
identity test is structural inequality here; documents are duplicate
free). -/
def findNearbyInputs (A : List InputEl) (e : InputEl) (radius : ℚ) : List InputEl :=
  A.filter (fun i => decide (i ≠ e ∧ dist2 e i ≤ radius * radius))

/-- The breadth-first worklist loop of `findInputCluster`: pop one input,
append its unvisited neighbours to both the queue and the cluster.  The
`fuel` argument bounds the number of pops; `findInputCluster` supplies
enough for the loop to run to queue exhaustion. -/
def bfsCluster (A : List InputEl) (radius : ℚ) :
    Nat → List InputEl → List InputEl → List InputEl
  | 0, _, cluster => cluster
  | _ + 1, [], cluster => cluster
  | fuel + 1, current :: rest, cluster =>
    let fresh := (findNearbyInputs A current radius).filter (fun i => decide (i ∉ cluster))
    bfsCluster A radius fuel (rest ++ fresh) (cluster ++ fresh)

/-- Model of `findInputCluster(startInput)`: breadth-first union of
inputs within a 200 px radius starting from `start`. -/
def findInputCluster (A : List InputEl) (start : InputEl) : List InputEl :=
  bfsCluster A 200 (A.length + 1) [start] [start]

/-- Model of `isJobInputCluster(inputs)`:
`validFields.length >= Math.ceil(inputs.length * 0.6)`, with the ceiling
written as exact natural division (`Math.ceil(n*0.6) = ⌈3n/5⌉` for every
feasible `n`; double rounding cannot reach the next integer). -/
def isJobInputCluster (inputs : List InputEl) : Bool :=
  decide ((3 * inputs.length + 4) / 5 ≤ classifiableCount inputs)

/-- The acceptance test of `detectInputClusters`:
`cluster.length >= 3 && this.isJobInputCluster(cluster)`. -/
def clusterAccept (cluster : List InputEl) : Bool :=
  decide (3 ≤ cluster.length) && isJobInputCluster cluster

/-- Model of `detectInputClusters()`: walk all inputs, skip inputs already
placed in an accepted cluster, and push each accepted cluster; the
`processedInputs` set is the second fold component. -/
def detectInputClusters (A : List InputEl) : List (List InputEl) :=
  (A.foldl
    (fun st input =>
      if input ∈ st.2 then st
      else
        let cluster := findInputCluster A input
        if clusterAccept cluster then (st.1 ++ [cluster], st.2 ++ cluster) else st)
    (([], []) : List (List InputEl) × List InputEl)).1

/-- Model of `detectJobForms()`, as the list of groups pushed to
`this.forms`: qualifying `<form>` elements in order, then qualifying
generic containers not already pushed, then the virtual clusters.  (The
`formFields` bookkeeping and the visual indicator are omitted; the
claims concern the groups.) -/
def detectJobForms (d : PageDoc) : List FormGroup :=
  let realForms := d.formEls.filter (fun f => isJobApplicationForm f d.url)
  let containerForms := d.potentialContainers.filter
    (fun c => hasJobFormFields c && !(realForms.contains c))
  let virtuals := detectInputClusters d.allInputs
  realForms.map FormGroup.real ++ containerForms.map FormGroup.container
    ++ virtuals.map FormGroup.virtual

/-- One `<option>` of a select control. -/
structure OptionEl where
  text : String := ""
  value : String := ""
  selected : Bool := false
deriving DecidableEq

/-- A `<select>` control: its option list, its current value, and its
selected index. -/
structure SelectEl where
  options : List OptionEl := []
  value : String := ""
  selectedIndex : Int := -1
deriving DecidableEq

/-- Trim of a character list (both ends, whitespace). -/
def trimChars (l : List Char) : List Char :=
  ((l.dropWhile (fun c => c.isWhitespace)).reverse.dropWhile (fun c => c.isWhitespace)).reverse

/-- The `validOptions` filter of `fillSelectField`:
`opt.value && opt.text.trim()`. -/
def validOptions (el : SelectEl) : List OptionEl :=
  el.options.filter (fun o => o.value ≠ "" && trimChars o.text.data ≠ [])

/-- The demographic-dropdown test of `shouldSkipDropdownFill`. -/
def isDemographicOptionSet (optionTexts : List String) : Bool :=
  optionTexts.any (fun t =>
    strContains t "american indian" || strContains t "asian" ||
    strContains t "black" || strContains t "hispanic" ||
    strContains t "white" || strContains t "decline" ||
    strContains t "prefer not" || strContains t "select..." ||
    strContains t "bachelor" || strContains t "master" ||
    strContains t "high school" || strContains t "doctorate")

/-- The personal-name test of `shouldSkipDropdownFill`:
`/^[a-zA-Z\s]+$/` on the raw value, at least two space-separated pieces,
and no literal `bachelor`/`master`. -/
def isPersonalNameValue (value : String) : Bool :=
  decide (value ≠ "") && value.data.all (fun c => c.isAlpha || c.isWhitespace)
    && decide (2 ≤ (splitCharsAux (fun c => c = ' ') value.data).length)
    && !(strContains value "bachelor") && !(strContains value "master")

/-- The email-mismatch test: an `@` value against an option set with no
email-flavoured option text. -/
def emailValueMismatch (value : String) (optionTexts : List String) : Bool :=
  strContains (asciiLower value) "@"
    && !(optionTexts.any (fun t => strContains t "email" || strContains t "@"))

/-- Model of `shouldSkipDropdownFill(element, value, options)`. -/
def shouldSkipDropdownFill (value : String) (options : List OptionEl) : Bool :=
  let valueLower := asciiLower value
  let optionTexts := options.map (fun o => asciiLower o.text)
  if emailValueMismatch value optionTexts then true
  else if isDemographicOptionSet optionTexts && isPersonalNameValue value then true
  else if !(optionTexts.any (fun t =>
        strContains t valueLower || strContains valueLower t
          || decide (calculateSimilarity t valueLower > 3/10)))
      && decide (options.length > 2) then true
  else false

/-- The `/^[a-z\s]+$/` test of `smartSelectMatch` (nonempty, lowercase
letters and whitespace only). -/
def isLowerAlphaSpace (s : String) : Bool :=
  decide (s ≠ "") && s.data.all (fun c => ('a' ≤ c ∧ c ≤ 'z') || c.isWhitespace)

/-- Model of `smartSelectMatch(options, value)`: the semantic keyword
families for demographic, work-authorization, sponsorship, relocation,
seniority, degree-level and yes/no selects. -/
def smartSelectMatch (options : List OptionEl) (value : String) : Option OptionEl :=
  if value = "" ∨ options = [] then none
  else
    let valueLower : String := ⟨trimChars (asciiLower value).data⟩
    let optionTexts := options.map (fun o => asciiLower o.text)
    let isDemo := optionTexts.any (fun t =>
      strContains t "american indian" || strContains t "asian" ||
      strContains t "black" || strContains t "hispanic" ||
      strContains t "white" || strContains t "decline" ||
      strContains t "prefer not")
    if isDemo && (strContains valueLower "@" || isLowerAlphaSpace valueLower) then
      options.find? (fun o =>
        strContains (asciiLower o.text) "decline" ||
        strContains (asciiLower o.text) "prefer not" ||
        strContains (asciiLower o.text) "not specified")
    else if strContains valueLower "authorized" || strContains valueLower "eligible"
        || strContains valueLower "citizen"
        || (strContains valueLower "yes" && strContains valueLower "work") then
      options.find? (fun o =>
        let t := asciiLower o.text
        strContains t "yes" || strContains t "authorized" || strContains t "eligible"
          || strContains t "citizen" || strContains t "legally"
          || strContains t "able to work"
          || (strContains t "no" && strContains t "sponsor")
          || strContains t "do not require")
    else if strContains valueLower "sponsor" || strContains valueLower "visa"
        || (strContains valueLower "require" && strContains valueLower "work") then
      options.find? (fun o =>
        let t := asciiLower o.text
        strContains t "sponsor" || strContains t "visa" || strContains t "require"
          || (strContains t "yes" && strContains t "future"))
    else if strContains valueLower "relocate" || strContains valueLower "location" then
      options.find? (fun o =>
        let t := asciiLower o.text
        strContains t "yes" || strContains t "willing" || strContains t "open")
    else if strContains valueLower "senior" || strContains valueLower "5+"
        || strContains valueLower "5-" then
      options.find? (fun o =>
        let t := asciiLower o.text
        strContains t "senior" || strContains t "5+" || strContains t "7+"
          || strContains t "lead" || strContains t "5-" || strContains t "3-5")
    else if strContains valueLower "master" then
      options.find? (fun o => strContains (asciiLower o.text) "master")
    else if strContains valueLower "bachelor" then
      options.find? (fun o => strContains (asciiLower o.text) "bachelor")
    else if valueLower = "yes" ∨ valueLower = "true" then
      options.find? (fun o => strContains (asciiLower o.text) "yes")
    else if valueLower = "no" ∨ valueLower = "false" then
      options.find? (fun o => strContains (asciiLower o.text) "no")
    else none

/-- Model of `fillSelectField(element, value)` as a state transformer on
the select control.  When the skip test fires the control is returned
untouched; otherwise the matched option (exact, then substring either
direction, then `smartSelectMatch`) is marked selected and the value and
selected index are set. -/
def fillSelectField (el : SelectEl) (value : String) : SelectEl :=
  let valid := validOptions el
  if shouldSkipDropdownFill value valid then el
  else
    let valueLower := asciiLower value
    let exactMatch := valid.find? (fun o =>
      asciiLower o.text = valueLower || asciiLower o.value = valueLower)
    let partialMatch := valid.find? (fun o =>
      strContains (asciiLower o.text) valueLower || strContains valueLower (asciiLower o.text))
    let matched := (exactMatch.orElse (fun _ => partialMatch)).orElse
      (fun _ => smartSelectMatch valid value)
    match matched with
    | none => el
    | some opt =>
      match el.options.findIdx? (fun o => o = opt) with
      | some i =>
        { options := el.options.set i { opt with selected := true },
          value := opt.value, selectedIndex := (i : Int) }
      | none => el

/-- A radio control: own value, the text of the adjacent sibling node
when present, and the checked flag. -/
structure RadioEl where
  value : String := ""
  nextSiblingText : Option String := none
  checked : Bool := false
deriving DecidableEq

/-- The match test of `fillRadioField`: own value equal (case folded) or
adjacent label text containing the value; a missing sibling is falsy. -/
def radioMatches (el : RadioEl) (value : String) : Bool :=
  asciiLower el.value = asciiLower value
    || ((el.nextSiblingText.map (fun t => strContains (asciiLower t) (asciiLower value))).getD false)

/-- Model of `fillRadioField(element, value)`: set `checked` only when
the control matches and is not yet checked. -/
def fillRadioField (el : RadioEl) (value : String) : RadioEl :=
  if radioMatches el value && !el.checked then { el with checked := true } else el

/-- The page-session state the resilience handler touches. -/
structure AgentState where
  isInitialized : Bool := true
  messageListenerActive : Bool := true
  contextInvalidated : Bool := false
  indicatorShown : Bool := false
  mutationObserverActive : Bool := true
  pingIntervalActive : Bool := true
  noticeShown : Bool := false
deriving DecidableEq

/-- Model of `showContextInvalidationMessage()`: show the notice unless
one is already displayed. -/
def showContextInvalidationMessage (s : AgentState) : AgentState :=
  if s.noticeShown then s else { s with noticeShown := true }

/-- Model of `handleContextInvalidation()`: an immediate no-op when the
session is already invalidated, otherwise mark invalidated, drop the
indicator, disconnect the observer, clear the ping interval, and show
the one notice. -/
def handleContextInvalidation (s : AgentState) : AgentState :=
  if s.contextInvalidated then s
  else
    let s1 := { s with isInitialized := false, messageListenerActive := false,
                       contextInvalidated := true }
    let s2 := { s1 with indicatorShown := false }
    let s3 := { s2 with mutationObserverActive := false }
    let s4 := { s3 with pingIntervalActive := false }
    showContextInvalidationMessage s4

/-- The context one liveness tick of `setupKeepAlive` reads. -/
structure KeepAliveCtx where
  url : String := ""
  isTopWindow : Bool := true
  isInitialized : Bool := true
  runtimeAvailable : Bool := true
  contextInvalidated : Bool := false
  pageVisible : Bool := true
deriving DecidableEq

/-- Model of the `isGreenhouseOrIframe` test of `setupKeepAlive`. -/
def isGreenhouseOrIframe (c : KeepAliveCtx) : Bool :=
  strContains c.url "greenhouse.io" || !c.isTopWindow

/-- The ping interval chosen by `setupKeepAlive`, in milliseconds. -/
def pingIntervalMs (c : KeepAliveCtx) : Nat :=
  if isGreenhouseOrIframe c then 20000 else 15000

/-- Model of one tick of the keep-alive interval: whether
`chrome.runtime.sendMessage({action: 'ping'})` is reached.  The
visibility check sits behind the `isGreenhouseOrIframe` guard, exactly
as in the source. -/
def keepAliveTickSends (c : KeepAliveCtx) : Bool :=
  if !c.isInitialized || !c.runtimeAvailable || c.contextInvalidated then false
  else if isGreenhouseOrIframe c && !c.pageVisible then false
  else true

/-- Spec-side matcher, clause (a): some pattern occurs verbatim in the
haystack. -/
def substringHit (text : String) (patterns : List String) : Prop :=
  ∃ p ∈ patterns, strContains text p = true

/-- Spec-side matcher, clause (b): some pattern shares a token of length
above 2 with the haystack after splitting on whitespace, hyphen and
underscore. -/
def tokenOverlapHit (text : String) (patterns : List String) : Prop :=
  ∃ p ∈ patterns, hasWordOverlap (splitTokens text) (splitTokens p) = true

/-- Spec-side matcher, clause (c): some pattern has normalized
Levenshtein similarity strictly above `0.7`. -/
def similarityHit (text : String) (patterns : List String) : Prop :=
  ∃ p ∈ patterns, calculateSimilarity text p > 7/10

/-- Spec-side classifier: the first taxonomy entry whose pattern list
matches, with the confidence of that list; `{null, null, 0}` when none
matches. -/
def classifierSpec (e : InputEl) : ClassificationResult :=
  match fieldPatterns.find? (fun ent => fuzzyMatchField (allTextOf e) ent.2.2) with
  | some ent => ⟨some ent.1, some ent.2.1, calculateMatchConfidence (allTextOf e) ent.2.2⟩
  | none => ⟨none, none, 0⟩

/-- Spec-side discovery score: the weighted sum of the five indicator
components, written as the claim states it. -/
def jobFormScoreSpec (f : FormC) (url : String) : ℚ :=
  let allText := asciiLower f.text ++ " " ++ asciiLower f.className ++ " "
    ++ asciiLower f.id ++ " " ++ asciiLower f.action
  (if strongJobIndicators.any (fun k => strContains allText k) then 6/10 else 0)
  + (if mediumJobIndicators.any (fun k => strContains allText k) then 2/10 else 0)
  + (if jobUrlKeywords.any (fun k => strContains (asciiLower url) k) then 2/10 else 0)
  + (if hasJobFormFields f then 3/10 else 0)
  + (if calculateJobFieldScore f > 5/10 then 2/10 else 0)

/-- Concrete field for Scenario A: an input named `first_name`. -/
def firstNameInput : InputEl := { name := "first_name" }

/-- Concrete field for Scenario A: an input named `email`. -/
def emailInput : InputEl := { name := "email" }

/-- First input of the double-assignment document: part of a structural
form and close to its siblings. -/
def dupInput1 : InputEl := { idx := 1, name := "first_name", left := 0, top := 0, width := 100, height := 20 }

/-- Second input of the double-assignment document. -/
def dupInput2 : InputEl := { idx := 2, name := "email", left := 0, top := 40, width := 100, height := 20 }

/-- Third input of the double-assignment document. -/
def dupInput3 : InputEl := { idx := 3, name := "phone", left := 0, top := 80, width := 100, height := 20 }

/-- A structural form that owns the three inputs and qualifies as a job
application form (its class carries the strong indicator
`application`). -/
def dupForm : FormC :=
  { className := "application-form", inputs := [dupInput1, dupInput2, dupInput3] }

/-- A page holding the qualifying form; the three inputs are also free
for the spatial-cluster scan, which sees every input of the page. -/
def dupDoc : PageDoc :=
  { url := "https://host.test/p", formEls := [dupForm], potentialContainers := [],
    allInputs := [dupInput1, dupInput2, dupInput3] }

/-- Scenario C input `fname`. -/
def clusterInput1 : InputEl := { idx := 1, name := "fname", left := 0, top := 0, width := 100, height := 20 }

/-- Scenario C input `lname`. -/
def clusterInput2 : InputEl := { idx := 2, name := "lname", left := 20, top := 0, width := 100, height := 20 }

/-- Scenario C input `email`. -/
def clusterInput3 : InputEl := { idx := 3, name := "email", left := 40, top := 0, width := 100, height := 20 }

/-- Scenario C input `resume`. -/
def clusterInput4 : InputEl := { idx := 4, name := "resume", left := 60, top := 0, width := 100, height := 20 }

/-- Scenario C input `cover_letter`. -/
def clusterInput5 : InputEl := { idx := 5, name := "cover_letter", left := 80, top := 0, width := 100, height := 20 }

/-- The five Scenario C inputs; all pairwise center distances are at
most 80 px, within the 150 px the scenario asks for. -/
def clusterInputs : List InputEl :=
  [clusterInput1, clusterInput2, clusterInput3, clusterInput4, clusterInput5]

/-- Scenario C page: five free-standing inputs, no form containers. -/
def clusterDoc : PageDoc := { url := "https://host.test/p", allInputs := clusterInputs }

/-- A select control offering only degree levels, with a personal-name
source value in flight: the boundary case of the skip test. -/
def degreeSelect : SelectEl :=
  { options :=
      [ { text := "Select...", value := "" },
        { text := "Bachelors", value := "b" },
        { text := "Masters", value := "m" },
        { text := "PhD", value := "p" } ],
    value := "", selectedIndex := 0 }

/-- An ordinary-page keep-alive context whose page is hidden. -/
def hiddenOrdinaryCtx : KeepAliveCtx :=
  { url := "https://host.test/apply-page", isTopWindow := true, isInitialized := true,
    runtimeAvailable := true, contextInvalidated := false, pageVisible := false }

/-- A hostile-context (embedded frame) keep-alive context, hidden. -/
def hiddenFrameCtx : KeepAliveCtx :=
  { url := "https://host.test/apply-page", isTopWindow := false, isInitialized := true,
    runtimeAvailable := true, contextInvalidated := false, pageVisible := false }

/-- A fresh active session state. -/
def activeSession : AgentState := {}

/-- Proximity adjacency over the page inputs: `y` is an input of the
page, distinct from `x`, within the radius. -/
def nearAdj (A : List InputEl) (r : ℚ) (x y : InputEl) : Prop :=
  y ∈ A ∧ y ≠ x ∧ dist2 x y ≤ r * r

/-- Reachability in the proximity graph. -/
def nearReach (A : List InputEl) (r : ℚ) : InputEl → InputEl → Prop :=
  Relation.ReflTransGen (nearAdj A r)

/-- The number of page inputs not yet in the cluster; the fuel measure
of the breadth-first loop. -/
def notInCount (A cluster : List InputEl) : Nat :=
  (A.filter (fun x => decide (x ∉ cluster))).length

theorem qmax_le_left (a b : ℚ) : a ≤ qmax a b := by
  unfold qmax; split
  · assumption
  · exact le_refl a

theorem qmax_le_right (a b : ℚ) : b ≤ qmax a b := by
  unfold qmax; split
  · exact le_refl b
  · exact le_of_not_le (by assumption)

theorem qmax_choice (a b : ℚ) : qmax a b = a ∨ qmax a b = b := by
  unfold qmax; split
  · exact Or.inr rfl
  · exact Or.inl rfl

theorem foldl_qmax_init_le (g : String → ℚ) :
    ∀ (l : List String) (a : ℚ), a ≤ l.foldl (fun acc p => qmax acc (g p)) a := by
  intro l
  induction l with
  | nil => intro a; simp
  | cons p t ih =>
    intro a
    simpa using le_trans (qmax_le_left a (g p)) (ih (qmax a (g p)))

theorem foldl_qmax_mem_le (g : String → ℚ) :
    ∀ (l : List String) (a : ℚ) (x : String), x ∈ l →
      g x ≤ l.foldl (fun acc p => qmax acc (g p)) a := by
  intro l
  induction l with
  | nil => intro a x hx; cases hx
  | cons p t ih =>
    intro a x hx
    rcases List.mem_cons.mp hx with rfl | hx
    · simpa using le_trans (qmax_le_right a (g x)) (foldl_qmax_init_le g t (qmax a (g x)))
    · simpa using ih (qmax a (g p)) x hx

theorem foldl_qmax_cases (g : String → ℚ) :
    ∀ (l : List String) (a : ℚ),
      l.foldl (fun acc p => qmax acc (g p)) a = a
        ∨ ∃ x ∈ l, l.foldl (fun acc p => qmax acc (g p)) a = g x := by
  intro l
  induction l with
  | nil => intro a; exact Or.inl rfl
  | cons p t ih =>
    intro a
    rcases ih (qmax a (g p)) with h | ⟨x, hx, h⟩
    · rcases qmax_choice a (g p) with hq | hq
      · exact Or.inl (by simpa [hq] using h)
      · exact Or.inr ⟨p, List.mem_cons_self p t, by simpa [hq] using h⟩
    · exact Or.inr ⟨x, List.mem_cons_of_mem p hx, by simpa using h⟩

theorem identifyLoop_eq_find (text : String) :
    ∀ l : List (FieldCategory × String × List String),
      identifyLoop text l =
        match l.find? (fun ent => fuzzyMatchField text ent.2.2) with
        | some ent => ⟨some ent.1, some ent.2.1, calculateMatchConfidence text ent.2.2⟩
        | none => ⟨none, none, 0⟩ := by
  intro l
  induction l with
  | nil => rfl
  | cons ent t ih =>
    obtain ⟨cat, ty, pats⟩ := ent
    cases h : fuzzyMatchField text pats with
    | true => simp [identifyLoop, h, List.find?_cons_of_pos]
    | false => simp [identifyLoop, h, List.find?_cons_of_neg, ih]

/-- C4.  The classifier tests each taxonomy entry in order with the three
matchers, substring containment, then token overlap, then similarity
strictly above `0.7`; the returned confidence bounds every per-pattern
score and is attained by one of them (`1.0` for substring hits, else the
similarity, `0` over the empty list); and the whole classifier returns
the first matching `(category, type)` and `{null, null, 0}` when no
entry matches. -/
theorem claim_C4_matcher_spec :
    (∀ (text : String) (patterns : List String),
      fuzzyMatchField text patterns = true ↔
        substringHit text patterns ∨ tokenOverlapHit text patterns
          ∨ similarityHit text patterns) ∧
    (∀ (text : String) (patterns : List String),
      (∀ p ∈ patterns,
        (if strContains text p then (1 : ℚ) else calculateSimilarity text p)
          ≤ calculateMatchConfidence text patterns) ∧
      (calculateMatchConfidence text patterns = 0 ∨
        ∃ p ∈ patterns,
          calculateMatchConfidence text patterns
            = if strContains text p then (1 : ℚ) else calculateSimilarity text p)) ∧
    (∀ e : InputEl, identifyField e = classifierSpec e) := by
  refine ⟨?_, ?_, ?_⟩
  · intro text patterns
    unfold fuzzyMatchField substringHit tokenOverlapHit similarityHit
    simp [List.any_eq_true]
  · intro text patterns
    constructor
    · intro p hp
      exact foldl_qmax_mem_le (fun p => if strContains text p then (1 : ℚ)
        else calculateSimilarity text p) patterns 0 p hp
    · exact foldl_qmax_cases (fun p => if strContains text p then (1 : ℚ)
        else calculateSimilarity text p) patterns 0
  · intro e
    unfold identifyField classifierSpec
    exact identifyLoop_eq_find (allTextOf e) fieldPatterns

/-- C5.  The discovery qualification score is the sum of `0.6` for a
strong lexical indicator, `0.2` for a medium indicator, `0.2` for a
job-flavoured page URL, `0.3` for the job-field keyword test, and `0.2`
for a classifiable-field ratio above `0.5`; a container qualifies
exactly when the sum is strictly greater than `0.3`. -/
theorem claim_C5_discovery_score :
    ∀ (f : FormC) (url : String),
      isJobApplicationForm f url = true ↔ jobFormScoreSpec f url > 3/10 := by
  intro f url
  simp only [isJobApplicationForm, jobFormScoreSpec, decide_eq_true_eq]
  split_ifs <;> norm_num

/-- C10.  The radio writer never transitions a checked control to
unchecked: the written state is the old state joined with the match
test, and the other fields of the control are untouched; in particular
an already-checked control and a non-matching control are left exactly
as they were. -/
theorem claim_C10_radio_never_unchecks :
    ∀ (el : RadioEl) (value : String),
      (fillRadioField el value).checked = (el.checked || radioMatches el value) ∧
      (fillRadioField el value).value = el.value ∧
      (fillRadioField el value).nextSiblingText = el.nextSiblingText := by
  intro el value
  unfold fillRadioField
  cases hm : radioMatches el value <;> cases hc : el.checked <;> simp [hm, hc]

/-- C9 counterexample.  On an ordinary top-level page that is not
visible, one liveness tick still sends the ping: the visibility skip
sits behind the hostile-context guard, so the claim that the ping is
always skipped while the page is not visible fails. -/
theorem claim_C9_counterexample :
    hiddenOrdinaryCtx.pageVisible = false
      ∧ keepAliveTickSends hiddenOrdinaryCtx = true := by decide

/-- C9 amended.  On known-hostile or embedded-frame contexts the
liveness tick is skipped while the page is not visible (ordinary pages
ping regardless of visibility, see the counterexample). -/
theorem claim_C9_amended :
    ∀ c : KeepAliveCtx, isGreenhouseOrIframe c = true → c.pageVisible = false →
      keepAliveTickSends c = false := by
  intro c h1 h2
  unfold keepAliveTickSends
  split
  · rfl
  · simp [h1, h2]

theorem claim_C9_witness :
    isGreenhouseOrIframe hiddenFrameCtx = true ∧ hiddenFrameCtx.pageVisible = false ∧
      keepAliveTickSends hiddenFrameCtx = false :=
  ⟨by decide, by decide, claim_C9_amended hiddenFrameCtx (by decide) (by decide)⟩

/-- C8.  From a non-invalidated session state, the invalidation handler
marks the session invalidated, stops the liveness interval, disconnects
the document observer and shows the user notice; running the handler
again on the resulting state is a no-op, so the Invalidated state is
entered exactly once even for two failures in quick succession. -/
theorem claim_C8_invalidated_once :
    ∀ s : AgentState, s.contextInvalidated = false →
      (handleContextInvalidation s).contextInvalidated = true ∧
      (handleContextInvalidation s).pingIntervalActive = false ∧
      (handleContextInvalidation s).mutationObserverActive = false ∧
      (handleContextInvalidation s).noticeShown = true ∧
      handleContextInvalidation (handleContextInvalidation s)
        = handleContextInvalidation s := by
  intro s h
  cases hn : s.noticeShown <;>
    simp [handleContextInvalidation, showContextInvalidationMessage, h, hn]

theorem claim_C8_witness :
    activeSession.contextInvalidated = false ∧
    ((handleContextInvalidation activeSession).contextInvalidated = true ∧
      (handleContextInvalidation activeSession).pingIntervalActive = false ∧
      (handleContextInvalidation activeSession).mutationObserverActive = false ∧
      (handleContextInvalidation activeSession).noticeShown = true ∧
      handleContextInvalidation (handleContextInvalidation activeSession)
        = handleContextInvalidation activeSession) :=
  ⟨by decide, claim_C8_invalidated_once activeSession (by decide)⟩

/-- C7.  The select writer returns without modifying the control
whenever the skip test would fire for an email-like value against an
option set with no email-flavoured option, or for a multi-word personal
name against a demographic or categorical option set. -/
theorem claim_C7_select_skip :
    ∀ (el : SelectEl) (value : String),
      (emailValueMismatch value ((validOptions el).map (fun o => asciiLower o.text)) = true
        ∨ (isDemographicOptionSet ((validOptions el).map (fun o => asciiLower o.text)) = true
            ∧ isPersonalNameValue value = true)) →
      fillSelectField el value = el := by
  intro el value h
  have hskip : shouldSkipDropdownFill value (validOptions el) = true := by
    unfold shouldSkipDropdownFill
    rcases h with h | ⟨h1, h2⟩
    · simp [h]
    · cases hE : emailValueMismatch value ((validOptions el).map (fun o => asciiLower o.text)) <;>
        simp [hE, h1, h2]
  unfold fillSelectField
  simp [hskip]

theorem claim_C7_witness :
    (isDemographicOptionSet ((validOptions degreeSelect).map (fun o => asciiLower o.text)) = true
      ∧ isPersonalNameValue "John Smith" = true)
    ∧ fillSelectField degreeSelect "John Smith" = degreeSelect :=
  ⟨⟨by decide, by decide⟩,
    claim_C7_select_skip degreeSelect "John Smith" (Or.inr ⟨by decide, by decide⟩)⟩

set_option maxRecDepth 1000000 in
set_option maxHeartbeats 4000000 in
/-- C1.  Evaluating the classifier at the failing input: a field named
`first_name` classifies as `{personalInfo, fullName, 1.0}` rather than
the claimed `{personalInfo, firstName, 1.0}`, because the generic
pattern `name` in the `fullName` list (which precedes `firstName`)
already matches; the dedicated `first_name` pattern of the `firstName`
list is shadowed.  The `email` half of the scenario does hold. -/
theorem claim_C1_classifier_eval :
    identifyField firstNameInput
        = ⟨some FieldCategory.personalInfo, some "fullName", 1⟩
      ∧ identifyField firstNameInput
          ≠ ⟨some FieldCategory.personalInfo, some "firstName", 1⟩
      ∧ identifyField emailInput
          = ⟨some FieldCategory.personalInfo, some "email", 1⟩ := by decide

set_option maxRecDepth 1000000 in
set_option maxHeartbeats 12000000 in
/-- C6.  A spatial cluster is accepted as a virtual FormGroup exactly
when it has at least 3 inputs and at least 60 percent of them classify
into a non-null category (`validFields >= ceil(0.6 n)` is the same as
`5 * validFields >= 3 * n`); and the Scenario C page of five close
free-standing inputs named `fname, lname, email, resume, cover_letter`
is discovered as exactly one virtual FormGroup holding all five. -/
theorem claim_C6_cluster_rule :
    (∀ cluster : List InputEl,
      clusterAccept cluster = true ↔
        3 ≤ cluster.length ∧ 5 * classifiableCount cluster ≥ 3 * cluster.length) ∧
    detectJobForms clusterDoc = [FormGroup.virtual clusterInputs] ∧
    clusterInputs.length = 5 := by
  refine ⟨?_, by decide, by decide⟩
  intro cluster
  unfold clusterAccept isJobInputCluster
  simp only [Bool.and_eq_true, decide_eq_true_eq]
  constructor
  · rintro ⟨h1, h2⟩
    exact ⟨h1, by omega⟩
  · rintro ⟨h1, h2⟩
    exact ⟨h1, by omega⟩

set_option maxRecDepth 1000000 in
set_option maxHeartbeats 12000000 in
/-- C3 counterexample.  A page with one qualifying structural form whose
three inputs sit close together: the spatial-cluster step re-clusters
those same inputs into a virtual FormGroup, so an input already assigned
to a real group is reassigned, refuting the deduplication claim. -/
theorem claim_C3_counterexample :
    detectJobForms dupDoc
        = [FormGroup.real dupForm, FormGroup.virtual [dupInput1, dupInput2, dupInput3]]
      ∧ dupInput1 ∈ groupInputs (FormGroup.real dupForm)
      ∧ dupInput1 ∈ groupInputs (FormGroup.virtual [dupInput1, dupInput2, dupInput3])
      ∧ FormGroup.real dupForm ≠ FormGroup.virtual [dupInput1, dupInput2, dupInput3] := by
  decide

theorem dist2_comm (a b : InputEl) : dist2 a b = dist2 b a := by
  unfold dist2 centerX centerY; ring

theorem mem_findNearbyInputs {A : List InputEl} {e i : InputEl} {r : ℚ} :
    i ∈ findNearbyInputs A e r ↔ i ∈ A ∧ i ≠ e ∧ dist2 e i ≤ r * r := by
  simp [findNearbyInputs, List.mem_filter, decide_eq_true_eq, and_assoc]

theorem bfsCluster_cons (A : List InputEl) (r : ℚ) (fuel : Nat) (current : InputEl)
    (rest cluster : List InputEl) :
    bfsCluster A r (fuel + 1) (current :: rest) cluster
      = bfsCluster A r fuel
          (rest ++ (findNearbyInputs A current r).filter (fun i => decide (i ∉ cluster)))
          (cluster ++ (findNearbyInputs A current r).filter (fun i => decide (i ∉ cluster))) := rfl

theorem bfsCluster_sound (A : List InputEl) (r : ℚ) (P : InputEl → Prop)
    (hstep : ∀ x y, P x → y ∈ A → y ≠ x → dist2 x y ≤ r * r → P y) :
    ∀ (fuel : Nat) (queue cluster : List InputEl),
      (∀ x ∈ queue, P x) → (∀ x ∈ cluster, P x) →
      ∀ x ∈ bfsCluster A r fuel queue cluster, P x := by
  intro fuel
  induction fuel with
  | zero => intro queue cluster _ hc x hx; exact hc x hx
  | succ n ih =>
    intro queue cluster hq hc x hx
    cases queue with
    | nil => exact hc x hx
    | cons current rest =>
      rw [bfsCluster_cons] at hx
      have hfresh : ∀ y ∈ (findNearbyInputs A current r).filter
          (fun i => decide (i ∉ cluster)), P y := by
        intro y hy
        have hy' := (List.mem_filter.mp hy).1
        have hnear := mem_findNearbyInputs.mp hy'
        exact hstep current y (hq current (List.mem_cons_self _ _)) hnear.1 hnear.2.1 hnear.2.2
      refine ih _ _ ?_ ?_ x hx
      · intro z hz
        rcases List.mem_append.mp hz with h | h
        · exact hq z (List.mem_cons_of_mem _ h)
        · exact hfresh z h
      · intro z hz
        rcases List.mem_append.mp hz with h | h
        · exact hc z h
        · exact hfresh z h

theorem notInCount_append (A : List InputEl) (hA : A.Nodup) (cluster F : List InputEl)
    (hFA : ∀ x ∈ F, x ∈ A) (hFC : ∀ x ∈ F, x ∉ cluster) (hFnd : F.Nodup) :
    notInCount A (cluster ++ F) + F.length = notInCount A cluster := by
  unfold notInCount
  have h1 : A.filter (fun x => decide (x ∉ cluster ++ F))
      = (A.filter (fun x => decide (x ∉ cluster))).filter (fun x => decide (x ∉ F)) := by
    rw [List.filter_filter]
    apply List.filter_congr
    intro x _
    simp [List.mem_append, not_or, Bool.and_comm]
  have hBnd : (A.filter (fun x => decide (x ∉ cluster))).Nodup := hA.filter _
  have h2 : ((A.filter (fun x => decide (x ∉ cluster))).filter
      (fun x => decide (x ∈ F))).length = F.length := by
    have hnd2 : ((A.filter (fun x => decide (x ∉ cluster))).filter
        (fun x => decide (x ∈ F))).Nodup := hBnd.filter _
    have hmem : ∀ a, a ∈ (A.filter (fun x => decide (x ∉ cluster))).filter
        (fun x => decide (x ∈ F)) ↔ a ∈ F := by
      intro a
      simp only [List.mem_filter, decide_eq_true_eq]
      constructor
      · rintro ⟨_, h⟩; exact h
      · intro h; exact ⟨⟨hFA a h, hFC a h⟩, h⟩
    exact ((List.perm_ext_iff_of_nodup hnd2 hFnd).mpr hmem).length_eq
  have h3 := List.length_eq_length_filter_add
    (l := A.filter (fun x => decide (x ∉ cluster))) (fun x => decide (x ∈ F))
  rw [h1]
  have h4 : (A.filter (fun x => decide (x ∉ cluster))).filter (fun x => decide (x ∉ F))
      = (A.filter (fun x => decide (x ∉ cluster))).filter (fun x => !decide (x ∈ F)) := by
    apply List.filter_congr
    intro x _
    simp
  rw [h4]
  omega

theorem bfsCluster_closed (A : List InputEl) (r : ℚ) (hA : A.Nodup) :
    ∀ (fuel : Nat) (queue cluster : List InputEl),
      cluster.Nodup →
      (∀ x ∈ queue, x ∈ cluster) →
      (∀ x ∈ cluster, x ∈ queue
        ∨ ∀ y ∈ A, y ≠ x → dist2 x y ≤ r * r → y ∈ cluster) →
      queue.length + notInCount A cluster ≤ fuel →
      (∀ x ∈ cluster, x ∈ bfsCluster A r fuel queue cluster) ∧
      (bfsCluster A r fuel queue cluster).Nodup ∧
      (∀ x ∈ bfsCluster A r fuel queue cluster, ∀ y ∈ A, y ≠ x → dist2 x y ≤ r * r →
        y ∈ bfsCluster A r fuel queue cluster) := by
  intro fuel
  induction fuel with
  | zero =>
    intro queue cluster hnd hq hexp hfuel
    have hq0 : queue = [] := List.length_eq_zero.mp (by omega)
    subst hq0
    refine ⟨fun x hx => hx, hnd, ?_⟩
    intro x hx y hy hne hd
    rcases hexp x hx with h | h
    · cases h
    · exact h y hy hne hd
  | succ n ih =>
    intro queue cluster hnd hq hexp hfuel
    cases queue with
    | nil =>
      refine ⟨fun x hx => hx, hnd, ?_⟩
      intro x hx y hy hne hd
      rcases hexp x hx with h | h
      · cases h
      · exact h y hy hne hd
    | cons current rest =>
      have hFmem : ∀ x, x ∈ (findNearbyInputs A current r).filter
          (fun i => decide (i ∉ cluster))
          ↔ (x ∈ A ∧ x ≠ current ∧ dist2 current x ≤ r * r) ∧ x ∉ cluster := by
        intro x
        simp only [List.mem_filter, decide_eq_true_eq, mem_findNearbyInputs]
      set F := (findNearbyInputs A current r).filter (fun i => decide (i ∉ cluster)) with hF
      have hFnd : F.Nodup := ((hA.filter _).filter _)
      have hFdisj : ∀ x ∈ cluster, x ∉ F := by
        intro x hx hxF
        exact ((hFmem x).mp hxF).2 hx
      have hnd' : (cluster ++ F).Nodup := by
        refine hnd.append hFnd ?_
        intro x hx
        exact hFdisj x hx
      have hq' : ∀ x ∈ rest ++ F, x ∈ cluster ++ F := by
        intro x hx
        rcases List.mem_append.mp hx with h | h
        · exact List.mem_append.mpr (Or.inl (hq x (List.mem_cons_of_mem _ h)))
        · exact List.mem_append.mpr (Or.inr h)
      have hexp' : ∀ x ∈ cluster ++ F, x ∈ rest ++ F
          ∨ ∀ y ∈ A, y ≠ x → dist2 x y ≤ r * r → y ∈ cluster ++ F := by
        intro x hx
        rcases List.mem_append.mp hx with hx | hx
        · rcases hexp x hx with hxq | hxcl
          · rcases List.mem_cons.mp hxq with rfl | hxr
            · right
              intro y hy hne hd
              by_cases hyc : y ∈ cluster
              · exact List.mem_append.mpr (Or.inl hyc)
              · refine List.mem_append.mpr (Or.inr ?_)
                exact (hFmem y).mpr ⟨⟨hy, hne, hd⟩, hyc⟩
            · exact Or.inl (List.mem_append.mpr (Or.inl hxr))
          · right
            intro y hy hne hd
            exact List.mem_append.mpr (Or.inl (hxcl y hy hne hd))
        · exact Or.inl (List.mem_append.mpr (Or.inr hx))
      have hcount : notInCount A (cluster ++ F) + F.length = notInCount A cluster := by
        refine notInCount_append A hA cluster F ?_ ?_ hFnd
        · intro x hx; exact ((hFmem x).mp hx).1.1
        · intro x hx; exact ((hFmem x).mp hx).2
      have hfuel' : (rest ++ F).length + notInCount A (cluster ++ F) ≤ n := by
        have hlen : (current :: rest).length = rest.length + 1 := by simp
        simp only [List.length_append]
        omega
      obtain ⟨h1, h2, h3⟩ := ih (rest ++ F) (cluster ++ F) hnd' hq' hexp' hfuel'
      rw [bfsCluster_cons]
      exact ⟨fun x hx => h1 x (List.mem_append.mpr (Or.inl hx)), h2, h3⟩

theorem nearReach_mem (A : List InputEl) (r : ℚ) {s x : InputEl} (hs : s ∈ A)
    (h : nearReach A r s x) : x ∈ A := by
  induction h with
  | refl => exact hs
  | tail _ hadj _ => exact hadj.1

theorem nearReach_symm (A : List InputEl) (r : ℚ) {s x : InputEl} (hs : s ∈ A)
    (h : nearReach A r s x) : nearReach A r x s := by
  induction h with
  | refl => exact Relation.ReflTransGen.refl
  | @tail w z hsw hadj ih =>
    have hwA : w ∈ A := nearReach_mem A r hs hsw
    exact Relation.ReflTransGen.head
      ⟨hwA, fun he => hadj.2.1 he.symm, by rw [dist2_comm]; exact hadj.2.2⟩ ih

theorem closed_absorbs_reach (A : List InputEl) (r : ℚ) (C : List InputEl)
    (hcl : ∀ x ∈ C, ∀ y ∈ A, y ≠ x → dist2 x y ≤ r * r → y ∈ C) :
    ∀ {x z : InputEl}, x ∈ C → nearReach A r x z → z ∈ C := by
  intro x z hx h
  induction h with
  | refl => exact hx
  | tail _ hadj ih => exact hcl _ ih _ hadj.1 hadj.2.1 hadj.2.2

theorem findInputCluster_spec (A : List InputEl) (hA : A.Nodup) (s : InputEl) :
    s ∈ findInputCluster A s ∧
    (findInputCluster A s).Nodup ∧
    (∀ x ∈ findInputCluster A s, nearReach A 200 s x) ∧
    (∀ x ∈ findInputCluster A s, ∀ y ∈ A, y ≠ x → dist2 x y ≤ 200 * 200 →
      y ∈ findInputCluster A s) := by
  have hfuel : [s].length + notInCount A [s] ≤ A.length + 1 := by
    have hle : notInCount A [s] ≤ A.length := List.length_filter_le _ _
    simp only [List.length_singleton]
    omega
  obtain ⟨h1, h2, h3⟩ := bfsCluster_closed A 200 hA (A.length + 1) [s] [s]
    (List.nodup_singleton s) (fun x hx => hx) (fun x hx => Or.inl hx) hfuel
  have hsound : ∀ x ∈ findInputCluster A s, nearReach A 200 s x := by
    refine bfsCluster_sound A 200 (nearReach A 200 s) ?_ (A.length + 1) [s] [s] ?_ ?_
    · intro x y hx hyA hne hd
      exact Relation.ReflTransGen.tail hx ⟨hyA, hne, hd⟩
    · intro x hx
      rw [List.mem_singleton] at hx
      subst hx
      exact Relation.ReflTransGen.refl
    · intro x hx
      rw [List.mem_singleton] at hx
      subst hx
      exact Relation.ReflTransGen.refl
  exact ⟨h1 s (List.mem_singleton.mpr rfl), h2, hsound, h3⟩

theorem detectInputClusters_foldl_inv (A : List InputEl) (hA : A.Nodup) :
    ∀ (l : List InputEl), (∀ x ∈ l, x ∈ A) →
    ∀ st : List (List InputEl) × List InputEl,
      (∀ x, x ∈ st.2 ↔ ∃ C ∈ st.1, x ∈ C) →
      (∀ C ∈ st.1, ∀ x ∈ C, ∀ y ∈ A, y ≠ x → dist2 x y ≤ 200 * 200 → y ∈ C) →
      List.Pairwise (fun C D => ∀ x ∈ C, x ∉ D) st.1 →
      ((∀ x, x ∈ (l.foldl
            (fun st input =>
              if input ∈ st.2 then st
              else
                let cluster := findInputCluster A input
                if clusterAccept cluster then (st.1 ++ [cluster], st.2 ++ cluster) else st)
            st).2
          ↔ ∃ C ∈ (l.foldl
            (fun st input =>
              if input ∈ st.2 then st
              else
                let cluster := findInputCluster A input
                if clusterAccept cluster then (st.1 ++ [cluster], st.2 ++ cluster) else st)
            st).1, x ∈ C) ∧
        (∀ C ∈ (l.foldl
            (fun st input =>
              if input ∈ st.2 then st
              else
                let cluster := findInputCluster A input
                if clusterAccept cluster then (st.1 ++ [cluster], st.2 ++ cluster) else st)
            st).1, ∀ x ∈ C, ∀ y ∈ A, y ≠ x → dist2 x y ≤ 200 * 200 → y ∈ C) ∧
        List.Pairwise (fun C D => ∀ x ∈ C, x ∉ D)
          (l.foldl
            (fun st input =>
              if input ∈ st.2 then st
              else
                let cluster := findInputCluster A input
                if clusterAccept cluster then (st.1 ++ [cluster], st.2 ++ cluster) else st)
            st).1) := by
  intro l
  induction l with
  | nil =>
    intro _ st hmem hcl hpw
    exact ⟨hmem, hcl, hpw⟩
  | cons input t ih =>
    intro hsub st hmem hcl hpw
    rw [List.foldl_cons]
    have hinputA : input ∈ A := hsub input (List.mem_cons_self _ _)
    have htsub : ∀ x ∈ t, x ∈ A := fun x hx => hsub x (List.mem_cons_of_mem _ hx)
    by_cases hin : input ∈ st.2
    · have hstep :
          (if input ∈ st.2 then st
           else
             let cluster := findInputCluster A input
             if clusterAccept cluster then (st.1 ++ [cluster], st.2 ++ cluster) else st) = st := by
        simp [hin]
      rw [hstep]
      exact ih htsub st hmem hcl hpw
    · by_cases hacc : clusterAccept (findInputCluster A input) = true
      · have hstep :
            (if input ∈ st.2 then st
             else
               let cluster := findInputCluster A input
               if clusterAccept cluster then (st.1 ++ [cluster], st.2 ++ cluster) else st)
              = (st.1 ++ [findInputCluster A input], st.2 ++ findInputCluster A input) := by
          simp [hin, hacc]
        rw [hstep]
        obtain ⟨hsmem, hsnd, hsound, hclosed⟩ := findInputCluster_spec A hA input
        refine ih htsub _ ?_ ?_ ?_
        · intro x
          simp only [List.mem_append, List.mem_singleton]
          constructor
          · rintro (hx | hx)
            · obtain ⟨C, hC, hxC⟩ := (hmem x).mp hx
              exact ⟨C, Or.inl hC, hxC⟩
            · exact ⟨findInputCluster A input, Or.inr rfl, hx⟩
          · rintro ⟨C, hC | rfl, hxC⟩
            · exact Or.inl ((hmem x).mpr ⟨C, hC, hxC⟩)
            · exact Or.inr hxC
        · intro C hC
          rcases List.mem_append.mp hC with hC | hC
          · exact hcl C hC
          · rw [List.mem_singleton] at hC
            subst hC
            exact hclosed
        · rw [List.pairwise_append]
          refine ⟨hpw, List.pairwise_singleton _ _, ?_⟩
          intro C hC D hD x hxC hxD
          rw [List.mem_singleton] at hD
          subst hD
          have hreach : nearReach A 200 input x := hsound x hxD
          have hback : nearReach A 200 x input := nearReach_symm A 200 hinputA hreach
          have hinC : input ∈ C := closed_absorbs_reach A 200 C (hcl C hC) hxC hback
          exact hin ((hmem input).mpr ⟨C, hC, hinC⟩)
      · have hstep :
            (if input ∈ st.2 then st
             else
               let cluster := findInputCluster A input
               if clusterAccept cluster then (st.1 ++ [cluster], st.2 ++ cluster) else st) = st := by
          simp [hin, hacc]
        rw [hstep]
        exact ih htsub st hmem hcl hpw

/-- C3 amended.  Within one detection pass the virtual FormGroups the
spatial-cluster step builds are pairwise disjoint: an input already
assigned to a previously built virtual group is never reassigned to
another virtual group.  (Inputs owned by real, qualifying containers
are however not excluded from clustering; see the counterexample.) -/
theorem claim_C3_amended :
    ∀ A : List InputEl, A.Nodup →
      List.Pairwise (fun C D => ∀ x ∈ C, x ∉ D) (detectInputClusters A) := by
  intro A hA
  obtain ⟨-, -, h3⟩ := detectInputClusters_foldl_inv A hA A (fun x hx => hx) ([], [])
    (by simp) (by simp) (by simp)
  exact h3

theorem claim_C3_witness :
    List.Nodup clusterInputs ∧
      List.Pairwise (fun C D => ∀ x ∈ C, x ∉ D) (detectInputClusters clusterInputs) :=
  ⟨by decide, claim_C3_amended clusterInputs (by decide)⟩
